import Mathlib

/-!
Verification development for the secure-message-gateway mesh simulator.

The JavaScript sources are shallowly embedded:
* JS `Map` objects become insertion-ordered association lists
  (`List (String × α)`) with `mapGet` / `mapSet` / `mapDelete`;
* JS `Set` objects become duplicate-free `List String` with
  `setAdd` / `setDelete`;
* numbers that can be `Infinity` become `Option Nat` (`none` = `Infinity`);
* JS values that may be a string, `undefined` or `null` become `JVal`;
* functions that throw become `Except String`; loops without a structural
  bound take an explicit fuel argument, `none` meaning the fuel ran out
  (the loop is still running).

Wall-clock data (timestamps, average delivery time) is omitted: no claim
mentions it and it is not modellable.
-/

namespace SecureMesh

/-- Lookup in a JS-style map (first entry with the key). -/
def mapGet {α : Type} : List (String × α) → String → Option α
  | [], _ => none
  | (k', v) :: rest, k => if k' == k then some v else mapGet rest k

/-- JS `Map.has`. -/
def mapHas {α : Type} (m : List (String × α)) (k : String) : Bool :=
  (mapGet m k).isSome

/-- JS `Map.set`: update the first entry with the key in place, else append. -/
def mapSet {α : Type} : List (String × α) → String → α → List (String × α)
  | [], k, v => [(k, v)]
  | (k', v') :: rest, k, v =>
    if k' == k then (k', v) :: rest else (k', v') :: mapSet rest k v

/-- JS `Map.delete`: remove the first entry with the key. -/
def mapDelete {α : Type} : List (String × α) → String → List (String × α)
  | [], _ => []
  | (k', v') :: rest, k =>
    if k' == k then rest else (k', v') :: mapDelete rest k

/-- JS `Set.add`: append if absent. -/
def setAdd (s : List String) (x : String) : List String :=
  if x ∈ s then s else s ++ [x]

/-- JS `Set.delete`. -/
def setDelete (s : List String) (x : String) : List String :=
  s.filter (fun y => y != x)

/-! Basic lemmas about the map/set helpers. -/

theorem mapGet_mapSet_self {α : Type} (m : List (String × α)) (k : String) (v : α) :
    mapGet (mapSet m k v) k = some v := by
  induction m with
  | nil => simp [mapSet, mapGet]
  | cons p rest ih =>
    obtain ⟨k', v'⟩ := p
    by_cases h : k' == k <;> simp [mapSet, mapGet, h, ih]

theorem mapGet_mapSet_ne {α : Type} (m : List (String × α)) (k k' : String) (v : α)
    (h : k' ≠ k) : mapGet (mapSet m k v) k' = mapGet m k' := by
  induction m with
  | nil =>
    simp only [mapSet, mapGet]
    have : (k == k') = false := by
      simpa [beq_iff_eq] using fun hh => h hh.symm
    simp [this]
  | cons p rest ih =>
    obtain ⟨k₀, v₀⟩ := p
    by_cases h0 : k₀ == k <;> by_cases h1 : k₀ == k' <;>
      simp_all [mapSet, mapGet, beq_iff_eq]

theorem mapGet_mapDelete_ne {α : Type} (m : List (String × α)) (k k' : String)
    (h : k' ≠ k) : mapGet (mapDelete m k) k' = mapGet m k' := by
  induction m with
  | nil => simp [mapDelete]
  | cons p rest ih =>
    obtain ⟨k₀, v₀⟩ := p
    by_cases h0 : k₀ == k <;> by_cases h1 : k₀ == k' <;>
      simp_all [mapDelete, mapGet, beq_iff_eq]

theorem mapDelete_of_absent {α : Type} (m : List (String × α)) (k : String)
    (h : mapGet m k = none) : mapDelete m k = m := by
  induction m with
  | nil => simp [mapDelete]
  | cons p rest ih =>
    obtain ⟨k₀, v₀⟩ := p
    by_cases h0 : k₀ == k <;> simp_all [mapDelete, mapGet]

theorem mapGet_eq_none_iff {α : Type} (m : List (String × α)) (k : String) :
    mapGet m k = none ↔ k ∉ m.map Prod.fst := by
  induction m with
  | nil => simp [mapGet]
  | cons p rest ih =>
    obtain ⟨k₀, v₀⟩ := p
    by_cases h0 : k₀ == k
    · rw [beq_iff_eq] at h0
      subst h0
      simp [mapGet]
    · rw [beq_iff_eq] at h0
      simp only [mapGet, beq_iff_eq, if_neg h0, ih, List.map_cons, List.mem_cons]
      constructor
      · intro h hk
        rcases hk with hk | hk
        · exact h0 hk.symm
        · exact h hk
      · intro h hk
        exact h (Or.inr hk)

theorem mem_of_mapGet_eq_some {α : Type} {m : List (String × α)} {k : String} {v : α}
    (h : mapGet m k = some v) : (k, v) ∈ m := by
  induction m with
  | nil => simp [mapGet] at h
  | cons p rest ih =>
    obtain ⟨k₀, v₀⟩ := p
    by_cases h0 : k₀ == k <;> simp_all [mapGet, beq_iff_eq]

/-! Data model (from `src/unnamed/part_002` TopologyManager, `part_003`
Connection, and the node fields read by the router and the discovery
protocol). -/

/-- Value of one entry of a node's `capabilities` object: a boolean flag or
a free string. -/
inductive CapVal where
  | b : Bool → CapVal
  | s : String → CapVal
deriving DecidableEq

/-- JS truthiness of a capability value (`if (!node.capabilities.routing)`). -/
def capTruthy : CapVal → Bool
  | .b bb => bb
  | .s ss => ss != ""

/-- Fields of a mesh node that the embedded code reads. -/
structure MeshNode where
  id : String
  name : String
  type : String
  status : String
  trustScore : Nat
  capabilities : List (String × CapVal)
deriving DecidableEq

/-- Fields of a `Connection` that the embedded code reads. -/
structure Conn where
  id : String
  sourceNode : String
  targetNode : String
deriving DecidableEq

/-- The `meshNetwork.nodes` map (node name → node). -/
abbrev Registry := List (String × MeshNode)

/-- The `topologyGraph` map (node name → set of neighbor names). -/
abbrev Graph := List (String × List String)

/-- Mutable state of a `TopologyManager` (statistics and timestamps omitted). -/
structure TopoState where
  connections : List (String × Conn)
  nodes : Registry
  topologyGraph : Graph
deriving DecidableEq

/-- Neighbor set of a name in the adjacency map (`topologyGraph.get(n)`,
empty when absent, matching every guarded use in the source). -/
def neighbors (g : Graph) (k : String) : List String :=
  (mapGet g k).getD []

/-- TopologyManager.addNode: store the node by name and (re)initialize its
adjacency entry with an empty set. -/
def addNode (node : MeshNode) (st : TopoState) : TopoState :=
  { st with
    nodes := mapSet st.nodes node.name node,
    topologyGraph := mapSet st.topologyGraph node.name [] }

/-- One `if (!topologyGraph.has(k)) topologyGraph.set(k, new Set())` step of
`addConnection`. -/
def ensureEntry (g : Graph) (k : String) : Graph :=
  if mapHas g k then g else mapSet g k []

/-- One `if (topologyGraph.has(s)) topologyGraph.get(s).delete(t)` step of
`removeConnection`. -/
def delStage (g : Graph) (s t : String) : Graph :=
  if mapHas g s then mapSet g s (setDelete (neighbors g s) t) else g

/-- The edge-insertion block of `addConnection`: ensure entries for both
endpoints exist, then add the two directed edges. -/
def addEdgePair (g : Graph) (s t : String) : Graph :=
  let g2 := ensureEntry (ensureEntry g s) t
  let g3 := mapSet g2 s (setAdd (neighbors g2 s) t)
  mapSet g3 t (setAdd (neighbors g3 t) s)

/-- The edge-removal block of `removeConnection`: delete each directed edge
when the endpoint's entry exists. -/
def removeEdgePair (g : Graph) (s t : String) : Graph :=
  delStage (delStage g s t) t s

/-- TopologyManager.addConnection: always store the connection; add the
symmetric edge pair only when both endpoints exist in `meshNetwork.nodes`. -/
def addConnection (reg : Registry) (c : Conn) (st : TopoState) : TopoState :=
  let conns := mapSet st.connections c.id c
  if (mapGet reg c.sourceNode).isSome && (mapGet reg c.targetNode).isSome then
    { st with connections := conns,
              topologyGraph := addEdgePair st.topologyGraph c.sourceNode c.targetNode }
  else
    { st with connections := conns }

/-- TopologyManager.removeConnection: no-op when the id is unknown, else
delete both directed edges (where the endpoint entries exist) and the
stored connection. -/
def removeConnection (cid : String) (st : TopoState) : TopoState :=
  match mapGet st.connections cid with
  | none => st
  | some c =>
    { st with connections := mapDelete st.connections cid,
              topologyGraph := removeEdgePair st.topologyGraph c.sourceNode c.targetNode }

/-- Ids of the stored connections that touch a node name (the
`connectionsToRemove` list computed by `removeNode`). -/
def connectionsToRemove (conns : List (String × Conn)) (name : String) : List String :=
  (conns.filter (fun p => p.2.sourceNode == name || p.2.targetNode == name)).map Prod.fst

/-- TopologyManager.removeNode: remove every connection touching the node,
then delete its registry and adjacency entries. -/
def removeNode (node : MeshNode) (st : TopoState) : TopoState :=
  let ids := connectionsToRemove st.connections node.name
  let st1 := ids.foldl (fun s cid => removeConnection cid s) st
  { st1 with
    nodes := mapDelete st1.nodes node.name,
    topologyGraph := mapDelete st1.topologyGraph node.name }

/-- A JS value flowing through the router: a string, `undefined`, or
`null`. -/
inductive JVal where
  | str : String → JVal
  | undefined : JVal
  | nullv : JVal
deriving DecidableEq

/-- JS strict equality between a connection-endpoint string and an arbitrary
value (`connection.sourceNode === nodeName`). -/
def jeqStr (s : String) (v : JVal) : Bool :=
  match v with
  | .str t => s == t
  | _ => false

/-- TopologyManager.getConnection: first stored connection joining the two
names in either orientation. -/
def getConnection (st : TopoState) (a b : JVal) : Option Conn :=
  (st.connections.find? (fun p =>
    (jeqStr p.2.sourceNode a && jeqStr p.2.targetNode b) ||
    (jeqStr p.2.sourceNode b && jeqStr p.2.targetNode a))).map Prod.snd

/-- TopologyManager.getNodeConnections: all stored connections touching the
name. -/
def getNodeConnections (st : TopoState) (v : JVal) : List Conn :=
  (st.connections.filter (fun p =>
    jeqStr p.2.sourceNode v || jeqStr p.2.targetNode v)).map Prod.snd

/-! Further map/set lemmas used by the invariant proofs. -/

theorem mapSet_keys {α : Type} (m : List (String × α)) (k : String) (v : α) :
    (mapSet m k v).map Prod.fst =
      if mapHas m k then m.map Prod.fst else m.map Prod.fst ++ [k] := by
  induction m with
  | nil => simp [mapSet, mapHas, mapGet]
  | cons p rest ih =>
    obtain ⟨k₀, v₀⟩ := p
    by_cases h0 : k₀ == k <;>
      by_cases h1 : (mapGet rest k).isSome <;>
        simp_all [mapSet, mapHas, mapGet]

theorem nodup_keys_mapSet {α : Type} (m : List (String × α)) (k : String) (v : α)
    (h : (m.map Prod.fst).Nodup) : ((mapSet m k v).map Prod.fst).Nodup := by
  rw [mapSet_keys]
  by_cases hk : mapHas m k
  · simpa [hk]
  · have hk' : k ∉ m.map Prod.fst := by
      rw [← mapGet_eq_none_iff, ← Option.not_isSome_iff_eq_none]
      simpa [mapHas] using hk
    simp only [hk, if_false]
    refine List.Nodup.append h (List.nodup_singleton k) ?_
    simpa [List.disjoint_singleton] using hk'

theorem mapDelete_sublist {α : Type} (m : List (String × α)) (k : String) :
    (mapDelete m k).Sublist m := by
  induction m with
  | nil => simp [mapDelete]
  | cons p rest ih =>
    obtain ⟨k₀, v₀⟩ := p
    by_cases h0 : k₀ == k
    · simp only [mapDelete, if_pos h0]
      exact List.sublist_cons_self _ _
    · simp only [mapDelete, if_neg h0]
      exact ih.cons₂ _

theorem nodup_keys_mapDelete {α : Type} (m : List (String × α)) (k : String)
    (h : (m.map Prod.fst).Nodup) : ((mapDelete m k).map Prod.fst).Nodup :=
  ((mapDelete_sublist m k).map Prod.fst).nodup h

theorem mem_mapSet_self {α : Type} (m : List (String × α)) (k : String) (v : α) :
    (k, v) ∈ mapSet m k v := by
  induction m with
  | nil => simp [mapSet]
  | cons p rest ih =>
    obtain ⟨k₀, v₀⟩ := p
    by_cases h0 : k₀ == k <;> simp_all [mapSet, beq_iff_eq]

theorem mem_mapSet_of_ne {α : Type} {m : List (String × α)} {p : String × α}
    (hp : p ∈ m) (k : String) (v : α) (hne : p.1 ≠ k) : p ∈ mapSet m k v := by
  induction m with
  | nil => simp at hp
  | cons q rest ih =>
    obtain ⟨k₀, v₀⟩ := q
    rcases List.mem_cons.mp hp with h | h
    · subst h
      by_cases h0 : k₀ == k
      · rw [beq_iff_eq] at h0
        exact absurd h0 hne
      · simp [mapSet, h0]
    · by_cases h0 : k₀ == k <;> simp [mapSet, h0]
      · right
        exact h
      · right
        exact ih h

theorem mem_of_mem_mapDelete {α : Type} {m : List (String × α)} {k : String}
    {p : String × α} (hp : p ∈ mapDelete m k) : p ∈ m := by
  exact (mapDelete_sublist m k).mem hp

theorem mem_mapDelete_of_ne {α : Type} {m : List (String × α)} {p : String × α}
    (hp : p ∈ m) (k : String) (hne : p.1 ≠ k) : p ∈ mapDelete m k := by
  induction m with
  | nil => simp at hp
  | cons q rest ih =>
    obtain ⟨k₀, v₀⟩ := q
    rcases List.mem_cons.mp hp with h | h
    · subst h
      have h0 : (k₀ == k) = false := by
        simpa [beq_iff_eq] using hne
      simp [mapDelete, h0]
    · by_cases h0 : k₀ == k <;> simp [mapDelete, h0]
      · exact h
      · right
        exact ih h

theorem mem_mapDelete_ne_key {α : Type} {m : List (String × α)} {k : String}
    {p : String × α} (hnd : (m.map Prod.fst).Nodup) (hp : p ∈ mapDelete m k) :
    p.1 ≠ k := by
  induction m with
  | nil => simp [mapDelete] at hp
  | cons q rest ih =>
    obtain ⟨k₀, v₀⟩ := q
    simp only [List.map_cons, List.nodup_cons] at hnd
    by_cases h0 : k₀ == k
    · rw [beq_iff_eq] at h0
      subst h0
      simp only [mapDelete, beq_self_eq_true, if_true] at hp
      intro hpk
      exact hnd.1 (hpk ▸ List.mem_map_of_mem Prod.fst hp)
    · simp only [mapDelete, h0] at hp
      rcases List.mem_cons.mp hp with h | h
      · subst h
        simpa [beq_iff_eq] using h0
      · exact ih hnd.2 h

theorem mapGet_of_mem_nodup {α : Type} {m : List (String × α)} {p : String × α}
    (hnd : (m.map Prod.fst).Nodup) (hp : p ∈ m) : mapGet m p.1 = some p.2 := by
  induction m with
  | nil => simp at hp
  | cons q rest ih =>
    obtain ⟨k₀, v₀⟩ := q
    simp only [List.map_cons, List.nodup_cons] at hnd
    rcases List.mem_cons.mp hp with h | h
    · subst h
      simp [mapGet]
    · have hne : k₀ ≠ p.1 := by
        intro hh
        exact hnd.1 (hh ▸ List.mem_map_of_mem Prod.fst h)
      simp only [mapGet, beq_iff_eq, if_neg hne]
      exact ih hnd.2 h

theorem mem_setAdd {s : List String} {x y : String} :
    y ∈ setAdd s x ↔ y ∈ s ∨ y = x := by
  unfold setAdd
  by_cases h : x ∈ s <;> simp [h]
  exact fun e => e ▸ h

theorem mem_setDelete {s : List String} {x y : String} :
    y ∈ setDelete s x ↔ y ∈ s ∧ y ≠ x := by
  simp [setDelete, List.mem_filter, bne_iff_ne]

/-! Topology invariants (claim C5) and the edge-level behaviour of the
TopologyManager mutations. -/

/-- Adjacency symmetry: if A is adjacent to B then B is adjacent to A. -/
def SymmGraph (g : Graph) : Prop :=
  ∀ a b, b ∈ neighbors g a → a ∈ neighbors g b

/-- The stored connection entry `p` joins names `a` and `b`. -/
def Backs (p : String × Conn) (a b : String) : Prop :=
  (p.2.sourceNode = a ∧ p.2.targetNode = b) ∨ (p.2.sourceNode = b ∧ p.2.targetNode = a)

/-- Every edge of the adjacency map is backed by some stored connection. -/
def EdgeBacked (st : TopoState) : Prop :=
  ∀ a b, b ∈ neighbors st.topologyGraph a → ∃ p ∈ st.connections, Backs p a b

/-- JS `Map`s cannot hold duplicate keys; association-list states modelling
reachable JS states have nodup keys. -/
def WFKeys (st : TopoState) : Prop :=
  (st.connections.map Prod.fst).Nodup ∧ (st.topologyGraph.map Prod.fst).Nodup

/-- The invariant the TopologyManager mutations actually maintain. -/
def TopoInv (st : TopoState) : Prop :=
  WFKeys st ∧ SymmGraph st.topologyGraph ∧ EdgeBacked st

theorem neighbors_mapSet (g : Graph) (k : String) (v : List String) (x : String) :
    neighbors (mapSet g k v) x = if x = k then v else neighbors g x := by
  by_cases h : x = k
  · subst h
    simp [neighbors, mapGet_mapSet_self]
  · simp [neighbors, mapGet_mapSet_ne _ _ _ _ h, h]

theorem neighbors_ensure (g : Graph) (k x : String) :
    neighbors (ensureEntry g k) x = neighbors g x := by
  unfold ensureEntry
  by_cases h : mapHas g k
  · rw [if_pos h]
  · have hg : mapGet g k = none := by
      rw [← Option.not_isSome_iff_eq_none]
      simpa [mapHas] using h
    rw [if_neg h, neighbors_mapSet]
    by_cases hx : x = k
    · subst hx
      simp [neighbors, hg]
    · simp [hx]

theorem keys_ensure (g : Graph) (k : String)
    (h : (g.map Prod.fst).Nodup) :
    ((ensureEntry g k).map Prod.fst).Nodup := by
  unfold ensureEntry
  by_cases hk : mapHas g k
  · rwa [if_pos hk]
  · rw [if_neg hk]
    exact nodup_keys_mapSet _ _ _ h

theorem neighbors_addEdgePair (g : Graph) (s t x : String) :
    neighbors (addEdgePair g s t) x =
      if x = t then setAdd (if t = s then setAdd (neighbors g s) t else neighbors g t) s
      else if x = s then setAdd (neighbors g s) t
      else neighbors g x := by
  unfold addEdgePair
  simp only [neighbors_mapSet, neighbors_ensure]

theorem mem_neighbors_addEdgePair (g : Graph) (s t x y : String) :
    y ∈ neighbors (addEdgePair g s t) x ↔
      y ∈ neighbors g x ∨ (x = s ∧ y = t) ∨ (x = t ∧ y = s) := by
  rw [neighbors_addEdgePair]
  by_cases hxt : x = t
  · rw [if_pos hxt]
    by_cases hts : t = s
    · rw [if_pos hts, mem_setAdd, mem_setAdd]
      constructor
      · rintro ((h | h) | h)
        · exact Or.inl ((hxt.trans hts).symm ▸ h)
        · exact Or.inr (Or.inl ⟨hxt.trans hts, h⟩)
        · exact Or.inr (Or.inr ⟨hxt, h⟩)
      · rintro (h | ⟨_, hy⟩ | ⟨_, hy⟩)
        · exact Or.inl (Or.inl ((hxt.trans hts) ▸ h))
        · exact Or.inl (Or.inr hy)
        · exact Or.inr hy
    · rw [if_neg hts, mem_setAdd]
      constructor
      · rintro (h | h)
        · exact Or.inl (hxt.symm ▸ h)
        · exact Or.inr (Or.inr ⟨hxt, h⟩)
      · rintro (h | ⟨hx, _⟩ | ⟨_, hy⟩)
        · exact Or.inl (hxt ▸ h)
        · exact absurd (hxt.symm.trans hx) hts
        · exact Or.inr hy
  · rw [if_neg hxt]
    by_cases hxs : x = s
    · rw [if_pos hxs, mem_setAdd]
      constructor
      · rintro (h | h)
        · exact Or.inl (hxs.symm ▸ h)
        · exact Or.inr (Or.inl ⟨hxs, h⟩)
      · rintro (h | ⟨_, hy⟩ | ⟨hx, _⟩)
        · exact Or.inl (hxs ▸ h)
        · exact Or.inr hy
        · exact absurd hx hxt
    · rw [if_neg hxs]
      constructor
      · exact Or.inl
      · rintro (h | ⟨hx, _⟩ | ⟨hx, _⟩)
        · exact h
        · exact absurd hx hxs
        · exact absurd hx hxt

theorem keys_addEdgePair (g : Graph) (s t : String)
    (h : (g.map Prod.fst).Nodup) :
    ((addEdgePair g s t).map Prod.fst).Nodup := by
  unfold addEdgePair
  exact nodup_keys_mapSet _ _ _ (nodup_keys_mapSet _ _ _
    (keys_ensure _ _ (keys_ensure _ _ h)))

theorem neighbors_delStage (g : Graph) (s t x : String) :
    neighbors (delStage g s t) x =
      if x = s then setDelete (neighbors g s) t else neighbors g x := by
  unfold delStage
  by_cases hs : mapHas g s
  · rw [if_pos hs, neighbors_mapSet]
  · have hg : mapGet g s = none := by
      rw [← Option.not_isSome_iff_eq_none]
      simpa [mapHas] using hs
    rw [if_neg hs]
    by_cases hx : x = s
    · subst hx
      simp [neighbors, hg, setDelete]
    · simp [hx]

theorem neighbors_removeEdgePair (g : Graph) (s t x : String) :
    neighbors (removeEdgePair g s t) x =
      if x = t then setDelete (if t = s then setDelete (neighbors g s) t else neighbors g t) s
      else if x = s then setDelete (neighbors g s) t
      else neighbors g x := by
  unfold removeEdgePair
  simp only [neighbors_delStage]

theorem mem_neighbors_removeEdgePair (g : Graph) (s t x y : String) :
    y ∈ neighbors (removeEdgePair g s t) x ↔
      y ∈ neighbors g x ∧ ¬(x = s ∧ y = t) ∧ ¬(x = t ∧ y = s) := by
  rw [neighbors_removeEdgePair]
  by_cases hxt : x = t
  · rw [if_pos hxt]
    by_cases hts : t = s
    · rw [if_pos hts, mem_setDelete, mem_setDelete]
      constructor
      · rintro ⟨⟨h1, h2⟩, h3⟩
        refine ⟨(hxt.trans hts).symm ▸ h1, ?_, ?_⟩
        · rintro ⟨_, hy⟩
          exact h2 hy
        · rintro ⟨_, hy⟩
          exact h3 hy
      · rintro ⟨h1, h2, h3⟩
        refine ⟨⟨(hxt.trans hts) ▸ h1, ?_⟩, ?_⟩
        · intro hy
          exact h2 ⟨hxt.trans hts, hy⟩
        · intro hy
          exact h3 ⟨hxt, hy⟩
    · rw [if_neg hts, mem_setDelete]
      constructor
      · rintro ⟨h1, h2⟩
        refine ⟨hxt.symm ▸ h1, ?_, ?_⟩
        · rintro ⟨hx, _⟩
          exact hts (hxt.symm.trans hx)
        · rintro ⟨_, hy⟩
          exact h2 hy
      · rintro ⟨h1, _, h3⟩
        refine ⟨hxt ▸ h1, ?_⟩
        intro hy
        exact h3 ⟨hxt, hy⟩
  · rw [if_neg hxt]
    by_cases hxs : x = s
    · rw [if_pos hxs, mem_setDelete]
      constructor
      · rintro ⟨h1, h2⟩
        refine ⟨hxs.symm ▸ h1, ?_, ?_⟩
        · rintro ⟨_, hy⟩
          exact h2 hy
        · rintro ⟨hx, _⟩
          exact hxt hx
      · rintro ⟨h1, h2, _⟩
        refine ⟨hxs ▸ h1, ?_⟩
        intro hy
        exact h2 ⟨hxs, hy⟩
    · rw [if_neg hxs]
      constructor
      · intro h
        refine ⟨h, ?_, ?_⟩
        · rintro ⟨hx, _⟩
          exact hxs hx
        · rintro ⟨hx, _⟩
          exact hxt hx
      · rintro ⟨h, _, _⟩
        exact h

theorem keys_delStage (g : Graph) (s t : String)
    (h : (g.map Prod.fst).Nodup) :
    ((delStage g s t).map Prod.fst).Nodup := by
  unfold delStage
  by_cases hs : mapHas g s
  · rw [if_pos hs]
    exact nodup_keys_mapSet _ _ _ h
  · rwa [if_neg hs]

theorem keys_removeEdgePair (g : Graph) (s t : String)
    (h : (g.map Prod.fst).Nodup) :
    ((removeEdgePair g s t).map Prod.fst).Nodup := by
  unfold removeEdgePair
  exact keys_delStage _ _ _ (keys_delStage _ _ _ h)

theorem mapGet_mapDelete_self_nodup {α : Type} {m : List (String × α)} {k : String}
    (hnd : (m.map Prod.fst).Nodup) : mapGet (mapDelete m k) k = none := by
  cases h : mapGet (mapDelete m k) k with
  | none => rfl
  | some v =>
    exact absurd rfl (mem_mapDelete_ne_key hnd (mem_of_mapGet_eq_some h))

theorem removeConnection_connections (cid : String) (st : TopoState) :
    (removeConnection cid st).connections = mapDelete st.connections cid := by
  unfold removeConnection
  cases hc : mapGet st.connections cid with
  | none => exact (mapDelete_of_absent _ _ hc).symm
  | some c => rfl

/-- TopologyManager.addConnection preserves the maintained invariant,
provided the connection id is fresh (ids are uuids in the source). -/
theorem TopoInv_addConnection (reg : Registry) (c : Conn) (st : TopoState)
    (hI : TopoInv st) (hfresh : mapGet st.connections c.id = none) :
    TopoInv (addConnection reg c st) := by
  obtain ⟨⟨hwc, hwg⟩, hsym, hback⟩ := hI
  have hid : c.id ∉ st.connections.map Prod.fst := (mapGet_eq_none_iff _ _).mp hfresh
  have hmemold : ∀ p ∈ st.connections, p ∈ mapSet st.connections c.id c := by
    intro p hp
    refine mem_mapSet_of_ne hp _ _ ?_
    intro hpk
    exact hid (hpk ▸ List.mem_map_of_mem Prod.fst hp)
  unfold addConnection
  by_cases hreg : ((mapGet reg c.sourceNode).isSome && (mapGet reg c.targetNode).isSome) = true
  · rw [if_pos hreg]
    refine ⟨⟨nodup_keys_mapSet _ _ _ hwc, keys_addEdgePair _ _ _ hwg⟩, ?_, ?_⟩
    · intro a b hab
      rw [mem_neighbors_addEdgePair] at hab ⊢
      rcases hab with h | ⟨h1, h2⟩ | ⟨h1, h2⟩
      · exact Or.inl (hsym a b h)
      · exact Or.inr (Or.inr ⟨h2, h1⟩)
      · exact Or.inr (Or.inl ⟨h2, h1⟩)
    · intro a b hab
      rw [mem_neighbors_addEdgePair] at hab
      rcases hab with h | ⟨h1, h2⟩ | ⟨h1, h2⟩
      · obtain ⟨p, hp, hbk⟩ := hback a b h
        exact ⟨p, hmemold p hp, hbk⟩
      · exact ⟨(c.id, c), mem_mapSet_self _ _ _, Or.inl ⟨h1.symm, h2.symm⟩⟩
      · exact ⟨(c.id, c), mem_mapSet_self _ _ _, Or.inr ⟨h2.symm, h1.symm⟩⟩
  · rw [if_neg hreg]
    refine ⟨⟨nodup_keys_mapSet _ _ _ hwc, hwg⟩, hsym, ?_⟩
    intro a b hab
    obtain ⟨p, hp, hbk⟩ := hback a b hab
    exact ⟨p, hmemold p hp, hbk⟩

/-- TopologyManager.removeConnection preserves the maintained invariant. -/
theorem TopoInv_removeConnection (cid : String) (st : TopoState) (hI : TopoInv st) :
    TopoInv (removeConnection cid st) := by
  obtain ⟨⟨hwc, hwg⟩, hsym, hback⟩ := hI
  unfold removeConnection
  cases hc : mapGet st.connections cid with
  | none => exact ⟨⟨hwc, hwg⟩, hsym, hback⟩
  | some c =>
    refine ⟨⟨nodup_keys_mapDelete _ _ hwc, keys_removeEdgePair _ _ _ hwg⟩, ?_, ?_⟩
    · intro a b hab
      rw [mem_neighbors_removeEdgePair] at hab ⊢
      obtain ⟨h1, h2, h3⟩ := hab
      refine ⟨hsym a b h1, ?_, ?_⟩
      · rintro ⟨hb, ha⟩
        exact h3 ⟨ha, hb⟩
      · rintro ⟨hb, ha⟩
        exact h2 ⟨ha, hb⟩
    · intro a b hab
      rw [mem_neighbors_removeEdgePair] at hab
      obtain ⟨h1, h2, h3⟩ := hab
      obtain ⟨p, hp, hbk⟩ := hback a b h1
      have hpk : p.1 ≠ cid := by
        intro hpk
        have hsome : mapGet st.connections p.1 = some p.2 := mapGet_of_mem_nodup hwc hp
        rw [hpk, hc] at hsome
        have hpc : p.2 = c := by
          injection hsome with hh
          exact hh.symm
        rcases hbk with ⟨ha, hb⟩ | ⟨ha, hb⟩
        · exact h2 ⟨(hpc ▸ ha).symm ▸ rfl, (hpc ▸ hb).symm ▸ rfl⟩
        · exact h3 ⟨(hpc ▸ hb).symm ▸ rfl, (hpc ▸ ha).symm ▸ rfl⟩
      exact ⟨p, mem_mapDelete_of_ne hp _ hpk, hbk⟩

/-- TopologyManager.addNode preserves the maintained invariant when the
name has no adjacency entry yet; re-adding an existing node does not
(its adjacency set is cleared one-sidedly). -/
theorem TopoInv_addNode (node : MeshNode) (st : TopoState) (hI : TopoInv st)
    (h : mapGet st.topologyGraph node.name = none) :
    TopoInv (addNode node st) := by
  obtain ⟨⟨hwc, hwg⟩, hsym, hback⟩ := hI
  have hempty : neighbors st.topologyGraph node.name = [] := by
    simp [neighbors, h]
  refine ⟨⟨hwc, nodup_keys_mapSet _ _ _ hwg⟩, ?_, ?_⟩
  · intro a b hab
    rw [show (addNode node st).topologyGraph = mapSet st.topologyGraph node.name [] from rfl,
        neighbors_mapSet] at hab ⊢
    by_cases ha : a = node.name
    · rw [if_pos ha] at hab
      simp at hab
    · rw [if_neg ha] at hab
      have hba := hsym a b hab
      by_cases hb : b = node.name
      · exfalso
        rw [hb] at hba
        rw [hempty] at hba
        simp at hba
      · rw [if_neg hb]
        exact hba
  · intro a b hab
    rw [show (addNode node st).topologyGraph = mapSet st.topologyGraph node.name [] from rfl,
        neighbors_mapSet] at hab
    by_cases ha : a = node.name
    · rw [if_pos ha] at hab
      simp at hab
    · rw [if_neg ha] at hab
      exact hback a b hab

theorem foldl_removeConnection_inv (ids : List String) (st : TopoState) (hI : TopoInv st) :
    TopoInv (ids.foldl (fun s cid => removeConnection cid s) st) := by
  induction ids generalizing st with
  | nil => exact hI
  | cons cid rest ih =>
    rw [List.foldl_cons]
    exact ih _ (TopoInv_removeConnection cid st hI)

theorem foldl_removeConnection_clears (ids : List String) (st : TopoState) (name : String)
    (hI : TopoInv st)
    (hcov : ∀ p ∈ st.connections, (p.2.sourceNode = name ∨ p.2.targetNode = name) → p.1 ∈ ids) :
    ∀ p ∈ (ids.foldl (fun s cid => removeConnection cid s) st).connections,
      ¬(p.2.sourceNode = name ∨ p.2.targetNode = name) := by
  induction ids generalizing st with
  | nil =>
    intro p hp htouch
    exact absurd (hcov p hp htouch) (List.not_mem_nil _)
  | cons cid rest ih =>
    rw [List.foldl_cons]
    refine ih (removeConnection cid st) (TopoInv_removeConnection cid st hI) ?_
    intro q hq htouch
    rw [removeConnection_connections] at hq
    have hq' : q ∈ st.connections := mem_of_mem_mapDelete hq
    have hqk : q.1 ≠ cid := mem_mapDelete_ne_key hI.1.1 hq
    rcases List.mem_cons.mp (hcov q hq' htouch) with hh | hh
    · exact absurd hh hqk
    · exact hh

/-- TopologyManager.removeNode preserves the maintained invariant. -/
theorem TopoInv_removeNode (node : MeshNode) (st : TopoState) (hI : TopoInv st) :
    TopoInv (removeNode node st) := by
  have hI1 := foldl_removeConnection_inv (connectionsToRemove st.connections node.name) st hI
  have hclear := foldl_removeConnection_clears (connectionsToRemove st.connections node.name)
      st node.name hI ?hcov
  case hcov =>
    intro p hp ht
    unfold connectionsToRemove
    refine List.mem_map_of_mem Prod.fst ?_
    rw [List.mem_filter]
    refine ⟨hp, ?_⟩
    rcases ht with h | h <;> simp [h]
  set st1 := (connectionsToRemove st.connections node.name).foldl
      (fun s cid => removeConnection cid s) st with hst1
  obtain ⟨⟨hwc1, hwg1⟩, hsym1, hback1⟩ := hI1
  have hnoedge : ∀ a, node.name ∉ neighbors st1.topologyGraph a := by
    intro a hmem
    obtain ⟨p, hp, hbk⟩ := hback1 a node.name hmem
    apply hclear p hp
    rcases hbk with ⟨h1, h2⟩ | ⟨h1, h2⟩
    · exact Or.inr h2
    · exact Or.inl h1
  have hneigh : ∀ x, neighbors (mapDelete st1.topologyGraph node.name) x =
      if x = node.name then [] else neighbors st1.topologyGraph x := by
    intro x
    by_cases hx : x = node.name
    · rw [if_pos hx, hx]
      simp [neighbors, mapGet_mapDelete_self_nodup hwg1]
    · rw [if_neg hx]
      simp [neighbors, mapGet_mapDelete_ne _ _ _ hx]
  have hgraph : (removeNode node st).topologyGraph = mapDelete st1.topologyGraph node.name := rfl
  have hconns : (removeNode node st).connections = st1.connections := rfl
  refine ⟨⟨?_, ?_⟩, ?_, ?_⟩
  · rw [hconns]
    exact hwc1
  · rw [hgraph]
    exact nodup_keys_mapDelete _ _ hwg1
  · intro a b hab
    rw [hgraph, hneigh] at hab ⊢
    by_cases ha : a = node.name
    · rw [if_pos ha] at hab
      simp at hab
    · rw [if_neg ha] at hab
      have hbne : b ≠ node.name := by
        intro hb
        exact hnoedge a (hb ▸ hab)
      rw [if_neg hbne]
      exact hsym1 a b hab
  · intro a b hab
    rw [hgraph, hneigh] at hab
    by_cases ha : a = node.name
    · rw [if_pos ha] at hab
      simp at hab
    · rw [if_neg ha] at hab
      obtain ⟨p, hp, hbk⟩ := hback1 a b hab
      exact ⟨p, hconns ▸ hp, hbk⟩

/-! Round-trip behaviour of addConnection/removeConnection (claim C9). -/

theorem addConnection_connections (reg : Registry) (c : Conn) (st : TopoState) :
    (addConnection reg c st).connections = mapSet st.connections c.id c := by
  unfold addConnection
  by_cases h : ((mapGet reg c.sourceNode).isSome && (mapGet reg c.targetNode).isSome) = true
  · rw [if_pos h]
  · rw [if_neg h]

theorem mapDelete_mapSet_fresh {α : Type} (m : List (String × α)) (k : String) (v : α)
    (h : mapGet m k = none) : mapDelete (mapSet m k v) k = m := by
  induction m with
  | nil => simp [mapSet, mapDelete]
  | cons p rest ih =>
    obtain ⟨k₀, v₀⟩ := p
    by_cases h0 : k₀ == k
    · rw [beq_iff_eq] at h0
      subst h0
      simp [mapGet] at h
    · simp only [mapGet, h0, if_neg] at h
      simp only [mapSet, h0, if_neg, mapDelete]
      rw [if_neg (by simpa using h0)]
      rw [ih (by simpa [mapGet, h0] using h)]

theorem setDelete_setAdd (s : List String) (x : String) (h : x ∉ s) :
    setDelete (setAdd s x) x = s := by
  unfold setAdd
  rw [if_neg h]
  unfold setDelete
  rw [List.filter_append]
  have h1 : List.filter (fun y => y != x) s = s := by
    apply List.filter_eq_self.mpr
    intro a ha
    simp [bne_iff_ne]
    intro hax
    exact h (hax ▸ ha)
  have h2 : List.filter (fun y => y != x) [x] = [] := by
    simp
  rw [h1, h2, List.append_nil]

theorem setAdd_setAdd (s : List String) (x : String) :
    setAdd (setAdd s x) x = setAdd s x := by
  have h : x ∈ setAdd s x := mem_setAdd.mpr (Or.inr rfl)
  show (if x ∈ setAdd s x then setAdd s x else setAdd s x ++ [x]) = setAdd s x
  rw [if_pos h]

theorem setDelete_of_not_mem (s : List String) (x : String) (h : x ∉ s) :
    setDelete s x = s := by
  apply List.filter_eq_self.mpr
  intro a ha
  simp only [bne_iff_ne, ne_eq, decide_eq_true_eq]
  intro hax
  exact h (hax ▸ ha)

theorem setDelete_setDelete (s : List String) (x : String) :
    setDelete (setDelete s x) x = setDelete s x := by
  unfold setDelete
  rw [List.filter_filter]
  congr 1
  funext y
  by_cases h : y = x <;> simp [h]

theorem removeConnection_absent (cid : String) (st : TopoState)
    (h : mapGet st.connections cid = none) : removeConnection cid st = st := by
  unfold removeConnection
  rw [h]

theorem removeNode_absent (node : MeshNode) (st : TopoState)
    (hn : mapGet st.nodes node.name = none)
    (hg : mapGet st.topologyGraph node.name = none)
    (hc : ∀ p ∈ st.connections, p.2.sourceNode ≠ node.name ∧ p.2.targetNode ≠ node.name) :
    removeNode node st = st := by
  have hids : connectionsToRemove st.connections node.name = [] := by
    unfold connectionsToRemove
    rw [List.map_eq_nil]
    rw [List.filter_eq_nil]
    intro p hp
    obtain ⟨h1, h2⟩ := hc p hp
    simp [h1, h2]
  unfold removeNode
  rw [hids]
  simp only [List.foldl_nil]
  rw [mapDelete_of_absent _ _ hn, mapDelete_of_absent _ _ hg]

theorem roundtrip_graph (reg : Registry) (c : Conn) (st : TopoState)
    (hreg : ((mapGet reg c.sourceNode).isSome && (mapGet reg c.targetNode).isSome) = true)
    (hna : c.targetNode ∉ neighbors st.topologyGraph c.sourceNode)
    (hnb : c.sourceNode ∉ neighbors st.topologyGraph c.targetNode) :
    ∀ x, neighbors (removeConnection c.id (addConnection reg c st)).topologyGraph x =
      neighbors st.topologyGraph x := by
  intro x
  have hgetc : mapGet (addConnection reg c st).connections c.id = some c := by
    rw [addConnection_connections]
    exact mapGet_mapSet_self _ _ _
  have hgr : (addConnection reg c st).topologyGraph =
      addEdgePair st.topologyGraph c.sourceNode c.targetNode := by
    unfold addConnection
    rw [if_pos hreg]
  have hrem : (removeConnection c.id (addConnection reg c st)).topologyGraph =
      removeEdgePair (addEdgePair st.topologyGraph c.sourceNode c.targetNode)
        c.sourceNode c.targetNode := by
    unfold removeConnection
    rw [hgetc, hgr]
  rw [hrem, neighbors_removeEdgePair]
  set g := st.topologyGraph
  set s := c.sourceNode
  set t := c.targetNode
  by_cases hxt : x = t
  · by_cases hts : t = s
    · have hna' : s ∉ neighbors g s := hts ▸ hna
      rw [if_pos hxt, if_pos hts, hxt, hts, neighbors_addEdgePair, if_pos rfl, if_pos rfl,
          setAdd_setAdd, setDelete_setAdd _ _ hna', setDelete_of_not_mem _ _ hna']
    · rw [if_pos hxt, if_neg hts, hxt, neighbors_addEdgePair, if_pos rfl, if_neg hts,
          setDelete_setAdd _ _ hnb]
  · rw [if_neg hxt]
    by_cases hxs : x = s
    · rw [if_pos hxs, neighbors_addEdgePair]
      have hst : ¬ s = t := fun h => hxt (hxs.trans h)
      rw [if_neg hst, if_pos rfl, hxs]
      exact setDelete_setAdd _ _ hna
    · rw [if_neg hxs, neighbors_addEdgePair]
      rw [if_neg hxt, if_neg hxs]

/-! Concrete fixtures used by the topology counterexamples and witnesses. -/

def nodeFixA : MeshNode := ⟨"A", "A", "standard", "active", 50, [("routing", CapVal.b true)]⟩

def nodeFixB : MeshNode := ⟨"B", "B", "standard", "active", 50, [("routing", CapVal.b true)]⟩

def nodeFixX : MeshNode := ⟨"X", "X", "standard", "active", 10, []⟩

/-- Registry holding the two linked nodes A and B. -/
def regAB : Registry := [("A", nodeFixA), ("B", nodeFixB)]

/-- Registry holding X and Y but with an empty TopologyManager state. -/
def regXY : Registry :=
  [("X", nodeFixX), ("Y", ⟨"Y", "Y", "standard", "active", 10, []⟩)]

/-- TopologyManager state where A and B are tracked and joined by
connection c1. -/
def stAB : TopoState :=
  ⟨[("c1", ⟨"c1", "A", "B"⟩)], [("A", nodeFixA), ("B", nodeFixB)],
   [("A", ["B"]), ("B", ["A"])]⟩

/-- C5, counterexample: the claimed invariants fail on the code.
(i) `addConnection` with an unregistered endpoint stores the Connection and
adds no edges, so the stored Connection has no corresponding edge pair.
(ii) Re-running `addNode` for a connected node clears its adjacency entry
one-sidedly, breaking symmetry.
(iii) `addConnection` can create adjacency entries for names that have no
entry in the TopologyManager's node map. -/
theorem topology_invariant_counterexample :
    ((addConnection [] ⟨"cx", "X", "Y"⟩ ⟨[], [], []⟩).connections
        = [("cx", ⟨"cx", "X", "Y"⟩)]
      ∧ (addConnection [] ⟨"cx", "X", "Y"⟩ ⟨[], [], []⟩).topologyGraph = [])
    ∧ ("A" ∈ neighbors (addNode nodeFixA stAB).topologyGraph "B"
      ∧ "B" ∉ neighbors (addNode nodeFixA stAB).topologyGraph "A")
    ∧ ((addConnection regXY ⟨"cx", "X", "Y"⟩ ⟨[], [], []⟩).nodes = []
      ∧ mapHas (addConnection regXY ⟨"cx", "X", "Y"⟩ ⟨[], [], []⟩).topologyGraph "X"
          = true) := by
  decide

/-- C5 (amended): addConnection (with a fresh uuid id), removeConnection and
removeNode preserve adjacency symmetry, the property that every edge is
backed by some stored Connection, and nodup map keys; addNode preserves
them only when the node has no adjacency entry yet.  The original claim's
per-Connection edge correspondence and adjacency-name liveness are not
invariants of the code. -/
theorem topology_mutations_preserve_invariant
    (reg : Registry) (st : TopoState) (c : Conn) (cid : String) (node : MeshNode)
    (hI : TopoInv st) (hfresh : mapGet st.connections c.id = none) :
    TopoInv (addConnection reg c st) ∧
    TopoInv (removeConnection cid st) ∧
    TopoInv (removeNode node st) ∧
    (mapGet st.topologyGraph node.name = none → TopoInv (addNode node st)) :=
  ⟨TopoInv_addConnection reg c st hI hfresh,
   TopoInv_removeConnection cid st hI,
   TopoInv_removeNode node st hI,
   fun h => TopoInv_addNode node st hI h⟩

/-- The empty TopologyManager state satisfies the maintained invariant. -/
theorem TopoInv_empty : TopoInv ⟨[], [], []⟩ :=
  ⟨⟨List.nodup_nil, List.nodup_nil⟩,
   fun _ b h => by simp [neighbors, mapGet] at h,
   fun _ b h => by simp [neighbors, mapGet] at h⟩

/-- Witness for C5 at a concrete state. -/
theorem topology_mutations_preserve_invariant_witness :
    TopoInv (addConnection regAB ⟨"c9", "A", "B"⟩ ⟨[], [], []⟩) :=
  (topology_mutations_preserve_invariant regAB ⟨[], [], []⟩ ⟨"c9", "A", "B"⟩
    "c2" nodeFixX TopoInv_empty rfl).1

/-- C9, counterexample: with a second connection c2 over the already linked
pair (A, B), addConnection-then-removeConnection does not restore the
neighbour sets — the shared edge is deleted while connection c1 remains. -/
theorem roundtrip_counterexample :
    neighbors stAB.topologyGraph "A" = ["B"]
    ∧ neighbors (removeConnection "c2"
        (addConnection regAB ⟨"c2", "A", "B"⟩ stAB)).topologyGraph "A" = []
    ∧ ("c1", (⟨"c1", "A", "B"⟩ : Conn)) ∈ (removeConnection "c2"
        (addConnection regAB ⟨"c2", "A", "B"⟩ stAB)).connections := by
  decide

/-- C9 (amended): when no edge joins the endpoints beforehand (no other
Connection links them) and the connection id is fresh, addConnection
followed by removeConnection of that connection restores every neighbour
set and the connection store; removing an absent connection, or a node
that is untracked and touched by no stored connection, is a no-op. -/
theorem roundtrip_amended (reg : Registry) (st : TopoState) (c : Conn)
    (cid2 : String) (node : MeshNode)
    (hreg : ((mapGet reg c.sourceNode).isSome && (mapGet reg c.targetNode).isSome) = true)
    (hfresh : mapGet st.connections c.id = none)
    (hna : c.targetNode ∉ neighbors st.topologyGraph c.sourceNode)
    (hnb : c.sourceNode ∉ neighbors st.topologyGraph c.targetNode)
    (habs : mapGet st.connections cid2 = none)
    (hn1 : mapGet st.nodes node.name = none)
    (hn2 : mapGet st.topologyGraph node.name = none)
    (hn3 : ∀ p ∈ st.connections, p.2.sourceNode ≠ node.name ∧ p.2.targetNode ≠ node.name) :
    (∀ x, neighbors (removeConnection c.id (addConnection reg c st)).topologyGraph x =
        neighbors st.topologyGraph x) ∧
    (removeConnection c.id (addConnection reg c st)).connections = st.connections ∧
    removeConnection cid2 st = st ∧
    removeNode node st = st := by
  refine ⟨roundtrip_graph reg c st hreg hna hnb, ?_,
      removeConnection_absent cid2 st habs, removeNode_absent node st hn1 hn2 hn3⟩
  rw [removeConnection_connections, addConnection_connections]
  exact mapDelete_mapSet_fresh _ _ _ hfresh

/-- Witness for C9 at a concrete state. -/
theorem roundtrip_amended_witness :
    (∀ x, neighbors (removeConnection "c9"
        (addConnection regAB ⟨"c9", "A", "B"⟩ ⟨[], [], []⟩)).topologyGraph x =
      neighbors (⟨[], [], []⟩ : TopoState).topologyGraph x) ∧
    (removeConnection "c9" (addConnection regAB ⟨"c9", "A", "B"⟩
        ⟨[], [], []⟩)).connections = (⟨[], [], []⟩ : TopoState).connections ∧
    removeConnection "nope" ⟨[], [], []⟩ = ⟨[], [], []⟩ ∧
    removeNode nodeFixX ⟨[], [], []⟩ = ⟨[], [], []⟩ :=
  roundtrip_amended regAB ⟨[], [], []⟩ ⟨"c9", "A", "B"⟩ "nope" nodeFixX
    (by decide) rfl (by decide) (by decide) rfl rfl rfl
    (fun p hp => absurd hp (List.not_mem_nil p))

/-! Floyd–Warshall and the network diameter (claim C6). -/

/-- JS `<` on numbers that may be `Infinity` (`none`). -/
def optLt : Option Nat → Option Nat → Bool
  | some a, some b => a < b
  | some _, none => true
  | none, _ => false

/-- JS `+` on numbers that may be `Infinity`. -/
def optAdd : Option Nat → Option Nat → Option Nat
  | some a, some b => some (a + b)
  | _, _ => none

/-- Distance matrix as a function; the loops only ever read entries inside
the node range. -/
abbrev DistMat := Nat → Nat → Option Nat

/-- Matrix after the initialization loop: 0 on the diagonal, Infinity
elsewhere. -/
def fwInit : DistMat := fun i j => if i = j then some 0 else none

/-- `indexOf` of a node name in the ordered key list (`none` for JS -1). -/
def nodeIndex (ids : List String) (name : String) : Option Nat :=
  ids.findIdx? (fun x => x == name)

/-- The connection-seeding loop of `floydWarshall`: distance 1 both ways for
every stored connection whose endpoints are tracked. -/
def fwEdges (ids : List String) (conns : List (String × Conn)) (d : DistMat) : DistMat :=
  conns.foldl (fun d p =>
    match nodeIndex ids p.2.sourceNode, nodeIndex ids p.2.targetNode with
    | some si, some ti =>
      fun i j => if (i = si ∧ j = ti) ∨ (i = ti ∧ j = si) then some 1 else d i j
    | _, _ => d) d

/-- The triple relaxation loop of `floydWarshall`. -/
def fwLoop (n : Nat) (d0 : DistMat) : DistMat :=
  (List.range n).foldl (fun d k =>
    (List.range n).foldl (fun d i =>
      (List.range n).foldl (fun d j =>
        if optLt (optAdd (d i k) (d k j)) (d i j) then
          fun a b => if a = i ∧ b = j then optAdd (d i k) (d k j) else d a b
        else d) d) d) d0

/-- TopologyManager.floydWarshall. -/
def floydWarshall (st : TopoState) : DistMat :=
  fwLoop st.nodes.length (fwEdges (st.nodes.map Prod.fst) st.connections fwInit)

/-- TopologyManager.calculateNetworkDiameter: 0 for at most one node, else
the double loop keeping the largest non-Infinity entry. -/
def calculateNetworkDiameter (st : TopoState) : Nat :=
  if st.nodes.length ≤ 1 then 0
  else
    (List.range st.nodes.length).foldl (fun m i =>
      (List.range st.nodes.length).foldl (fun m j =>
        match floydWarshall st i j with
        | some v => if v > m then v else m
        | none => m) m) 0

/-- All Floyd–Warshall entries over the node range, row by row. -/
def fwEntries (st : TopoState) : List (Option Nat) :=
  (List.range st.nodes.length).bind
    (fun i => (List.range st.nodes.length).map (fun j => floydWarshall st i j))

/-- Modelled from the spec's words: the maximum finite all-pairs distance
computed by Floyd–Warshall, 0 for at most one node, infinite entries
excluded from the maximum. -/
def diameterSpec (st : TopoState) : Nat :=
  if st.nodes.length ≤ 1 then 0
  else ((fwEntries st).filterMap id).foldl Nat.max 0

theorem foldl_inv {α β : Type} (P : α → Prop) (f : α → β → α) (l : List β)
    (h : ∀ a b, P a → P (f a b)) (init : α) (h0 : P init) : P (l.foldl f init) := by
  induction l generalizing init with
  | nil => exact h0
  | cons x xs ih => exact ih _ (h init x h0)

theorem foldl_inv_mem {α β : Type} (P : α → Prop) (f : α → β → α) (l : List β)
    (h : ∀ a, P a → ∀ b ∈ l, P (f a b)) (init : α) (h0 : P init) : P (l.foldl f init) := by
  induction l generalizing init with
  | nil => exact h0
  | cons x xs ih =>
    exact ih (fun a ha b hb => h a ha b (List.mem_cons_of_mem x hb)) _
      (h init h0 x (List.mem_cons_self x xs))

theorem foldl_listBind {α β γ : Type} (l : List α) (f : α → List β) (g : γ → β → γ)
    (init : γ) :
    (l.bind f).foldl g init = l.foldl (fun acc x => (f x).foldl g acc) init := by
  induction l generalizing init with
  | nil => rfl
  | cons x xs ih => simp [List.foldl_append, ih]

theorem maxFold_eq (l : List (Option Nat)) (m : Nat) :
    l.foldl (fun m o => match o with
      | some v => if v > m then v else m
      | none => m) m = (l.filterMap id).foldl Nat.max m := by
  induction l generalizing m with
  | nil => rfl
  | cons o rest ih =>
    cases o with
    | none => simp [ih]
    | some v =>
      have hmax : (if v > m then v else m) = Nat.max m v := by
        by_cases h2 : v > m
        · rw [if_pos h2]
          exact (Nat.max_eq_right (Nat.le_of_lt h2)).symm
        · rw [if_neg h2]
          exact (Nat.max_eq_left (by omega)).symm
      have hfm : (some v :: rest).filterMap id = v :: rest.filterMap id := by simp
      have h1 : (some v :: rest).foldl (fun m o => match o with
          | some v => if v > m then v else m
          | none => m) m
          = rest.foldl (fun m o => match o with
          | some v => if v > m then v else m
          | none => m) (if v > m then v else m) := rfl
      rw [h1, ih, hmax, hfm, List.foldl_cons]

/-- C6 core: the diameter loop computes the maximum of the finite
Floyd–Warshall entries. -/
theorem calculateNetworkDiameter_eq_spec (st : TopoState) :
    calculateNetworkDiameter st = diameterSpec st := by
  unfold calculateNetworkDiameter diameterSpec
  by_cases h : st.nodes.length ≤ 1
  · rw [if_pos h, if_pos h]
  · rw [if_neg h, if_neg h]
    rw [← maxFold_eq]
    unfold fwEntries
    rw [foldl_listBind]
    congr 1
    funext acc i
    rw [List.foldl_map]

theorem fwLoop_init_pointwise (n : Nat) (d0 : DistMat)
    (h0 : ∀ i j, d0 i j = fwInit i j) :
    ∀ i j, fwLoop n d0 i j = fwInit i j := by
  unfold fwLoop
  refine foldl_inv (fun d : DistMat => ∀ i j, d i j = fwInit i j) _ _ ?_ _ h0
  intro d k hd
  refine foldl_inv (fun d : DistMat => ∀ i j, d i j = fwInit i j) _ _ ?_ _ hd
  intro d i hd
  refine foldl_inv (fun d : DistMat => ∀ i j, d i j = fwInit i j) _ _ ?_ _ hd
  intro d j hd
  by_cases hguard : optLt (optAdd (d i k) (d k j)) (d i j) = true
  · exfalso
    rw [hd i k, hd k j, hd i j] at hguard
    unfold fwInit optAdd optLt at hguard
    by_cases hik : i = k <;> by_cases hkj : k = j <;> by_cases hij : i = j <;>
      simp [hik, hkj, hij] at hguard
  · rw [if_neg hguard]
    exact hd

/-- With no stored connections the relaxation loop never fires and the
diameter evaluates to 0. -/
theorem calculateNetworkDiameter_no_edges (st : TopoState)
    (h : st.connections = []) : calculateNetworkDiameter st = 0 := by
  unfold calculateNetworkDiameter
  by_cases hn : st.nodes.length ≤ 1
  · rw [if_pos hn]
  · rw [if_neg hn]
    have hpoint : ∀ i j, floydWarshall st i j = fwInit i j := by
      unfold floydWarshall
      rw [h]
      exact fwLoop_init_pointwise _ _ (fun i j => rfl)
    refine foldl_inv (fun m => m = 0) _ _ ?_ _ rfl
    intro m i hm
    refine foldl_inv (fun m => m = 0) _ _ ?_ _ hm
    intro m' j hm'
    rw [hpoint i j]
    subst hm'
    unfold fwInit
    by_cases hij : i = j <;> simp [hij]

/-- C6: calculateNetworkDiameter equals the maximum finite Floyd–Warshall
distance over the current node set, is 0 for at most one node, and is 0
when no connections are stored; infinite entries are excluded from the
maximum rather than treated as the diameter. -/
theorem networkDiameter_claim (st : TopoState) :
    calculateNetworkDiameter st = diameterSpec st ∧
    (st.nodes.length ≤ 1 → calculateNetworkDiameter st = 0) ∧
    (st.connections = [] → calculateNetworkDiameter st = 0) :=
  ⟨calculateNetworkDiameter_eq_spec st,
   fun h => by unfold calculateNetworkDiameter; rw [if_pos h],
   fun h => calculateNetworkDiameter_no_edges st h⟩

/-- Witness for C6 at a concrete edgeless two-node state. -/
theorem networkDiameter_claim_witness :
    calculateNetworkDiameter ⟨[], regAB, []⟩ = 0 :=
  (networkDiameter_claim ⟨[], regAB, []⟩).2.2 rfl

/-! Clustering coefficient (claim C7). -/

/-- The triangle-counting double loop of calculateNodeClustering: for every
ordered pair of neighbours taken in list order, test
`topologyGraph.get(n1)?.has(n2)`. -/
def countTriangles (g : Graph) : List String → Nat
  | [] => 0
  | x :: rest =>
    (rest.filter (fun y => (neighbors g x).contains y)).length + countTriangles g rest

/-- TopologyManager.calculateNodeClustering, with exact rational arithmetic
in place of JS floats. -/
def calculateNodeClustering (g : Graph) (neigh : List String) : ℚ :=
  if neigh.length < 2 then 0
  else
    let triangles : ℚ := (countTriangles g neigh : ℚ)
    let maxTriangles : ℚ := (neigh.length : ℚ) * ((neigh.length : ℚ) - 1) / 2
    if maxTriangles > 0 then triangles / maxTriangles else 0

/-- TopologyManager.calculateClusteringCoefficient: accumulate the local
coefficients of the adjacency entries of degree ≥ 2 and average them. -/
def calculateClusteringCoefficient (st : TopoState) : ℚ :=
  if st.nodes.length = 0 then 0
  else
    let acc := st.topologyGraph.foldl
      (fun (acc : ℚ × Nat) p =>
        if 2 ≤ p.2.length then
          (acc.1 + calculateNodeClustering st.topologyGraph p.2, acc.2 + 1)
        else acc) ((0 : ℚ), (0 : Nat))
    if acc.2 > 0 then acc.1 / (acc.2 : ℚ) else 0

/-- Modelled from the spec's words: local coefficient
2·triangles / (deg·(deg−1)). -/
def localCoeffSpec (g : Graph) (neigh : List String) : ℚ :=
  2 * (countTriangles g neigh : ℚ) / ((neigh.length : ℚ) * ((neigh.length : ℚ) - 1))

/-- Modelled from the spec's words: arithmetic mean of the local
coefficients over exactly the adjacency entries of degree ≥ 2. -/
def clusteringSpec (g : Graph) : ℚ :=
  let hi := g.filter (fun p => decide (2 ≤ p.2.length))
  ((hi.map (fun p => localCoeffSpec g p.2)).sum) / (hi.length : ℚ)

theorem calculateNodeClustering_eq_spec (g : Graph) (neigh : List String)
    (h : 2 ≤ neigh.length) :
    calculateNodeClustering g neigh = localCoeffSpec g neigh := by
  unfold calculateNodeClustering localCoeffSpec
  rw [if_neg (by omega)]
  have hL : (2 : ℚ) ≤ (neigh.length : ℚ) := by exact_mod_cast h
  have hpos : ((neigh.length : ℚ) * ((neigh.length : ℚ) - 1)) / 2 > 0 := by
    apply div_pos
    · apply mul_pos (by linarith) (by linarith)
    · norm_num
  rw [if_pos hpos]
  rw [div_div_eq_mul_div]
  ring_nf

theorem clusterFold (g : Graph) (l : List (String × List String)) (acc : ℚ × Nat) :
    l.foldl (fun (acc : ℚ × Nat) p =>
        if 2 ≤ p.2.length then
          (acc.1 + calculateNodeClustering g p.2, acc.2 + 1)
        else acc) acc =
      (acc.1 + ((l.filter (fun p => decide (2 ≤ p.2.length))).map
          (fun p => calculateNodeClustering g p.2)).sum,
       acc.2 + (l.filter (fun p => decide (2 ≤ p.2.length))).length) := by
  induction l generalizing acc with
  | nil => simp
  | cons p rest ih =>
    by_cases h : 2 ≤ p.2.length
    · have hf : List.filter (fun p => decide (2 ≤ p.2.length)) (p :: rest)
          = p :: List.filter (fun p => decide (2 ≤ p.2.length)) rest := by
        simp [List.filter_cons, h]
      rw [List.foldl_cons, if_pos h, ih, hf]
      simp only [List.map_cons, List.sum_cons, List.length_cons, Prod.mk.injEq]
      constructor
      · ring
      · omega
    · have hf : List.filter (fun p => decide (2 ≤ p.2.length)) (p :: rest)
          = List.filter (fun p => decide (2 ≤ p.2.length)) rest := by
        simp [List.filter_cons, h]
      rw [List.foldl_cons, if_neg h, ih, hf]

/-- C7 core: the fold equals the mean over exactly the degree-≥2 entries,
whenever every adjacency key denotes a tracked node. -/
theorem calculateClusteringCoefficient_eq_spec (st : TopoState)
    (hsub : ∀ k ∈ st.topologyGraph.map Prod.fst, k ∈ st.nodes.map Prod.fst) :
    calculateClusteringCoefficient st = clusteringSpec st.topologyGraph := by
  unfold calculateClusteringCoefficient clusteringSpec
  by_cases hn : st.nodes.length = 0
  · rw [if_pos hn]
    have hnil : st.nodes = [] := List.length_eq_zero.mp hn
    have hgnil : st.topologyGraph = [] := by
      cases hg : st.topologyGraph with
      | nil => rfl
      | cons p rest =>
        exfalso
        have := hsub p.1 (by rw [hg]; exact List.mem_map_of_mem Prod.fst (List.mem_cons_self p rest))
        rw [hnil] at this
        simp at this
    rw [hgnil]
    simp
  · rw [if_neg hn, clusterFold]
    simp only [zero_add]
    by_cases hv : (st.topologyGraph.filter (fun p => decide (2 ≤ p.2.length))).length > 0
    · rw [if_pos hv]
      have hmap : (st.topologyGraph.filter (fun p => decide (2 ≤ p.2.length))).map
            (fun p => calculateNodeClustering st.topologyGraph p.2)
          = (st.topologyGraph.filter (fun p => decide (2 ≤ p.2.length))).map
            (fun p => localCoeffSpec st.topologyGraph p.2) := by
        apply List.map_congr_left
        intro p hp
        exact calculateNodeClustering_eq_spec _ _
          (of_decide_eq_true (List.mem_filter.mp hp).2)
      rw [hmap]
    · rw [if_neg hv]
      have hnil2 : st.topologyGraph.filter (fun p => decide (2 ≤ p.2.length)) = [] := by
        cases hfil : st.topologyGraph.filter (fun p => decide (2 ≤ p.2.length)) with
        | nil => rfl
        | cons q qs => rw [hfil] at hv; simp at hv
      rw [hnil2]
      simp

/-- Triangle fixture: three mutually connected nodes P, Q, R. -/
def stTriangle : TopoState :=
  ⟨[("t1", ⟨"t1", "P", "Q"⟩), ("t2", ⟨"t2", "Q", "R"⟩), ("t3", ⟨"t3", "P", "R"⟩)],
   [("P", ⟨"P", "P", "standard", "active", 50, []⟩),
    ("Q", ⟨"Q", "Q", "standard", "active", 50, []⟩),
    ("R", ⟨"R", "R", "standard", "active", 50, []⟩)],
   [("P", ["Q", "R"]), ("Q", ["P", "R"]), ("R", ["P", "Q"])]⟩

/-- C7: calculateClusteringCoefficient equals the arithmetic mean of
2·triangles/(deg·(deg−1)) over exactly the degree-≥2 adjacency entries
(nodes of degree < 2 appear in neither numerator nor denominator), and on
a triangle every local coefficient and the network value equal 1. -/
theorem nodeClustering_triangle :
    ∀ p ∈ stTriangle.topologyGraph,
      calculateNodeClustering stTriangle.topologyGraph p.2 = 1 := by
  have h1 : countTriangles stTriangle.topologyGraph ["Q", "R"] = 1 := by decide
  have h2 : countTriangles stTriangle.topologyGraph ["P", "R"] = 1 := by decide
  have h3 : countTriangles stTriangle.topologyGraph ["P", "Q"] = 1 := by decide
  intro p hp
  have hp' : p = ("P", ["Q", "R"]) ∨ p = ("Q", ["P", "R"]) ∨ p = ("R", ["P", "Q"]) := by
    simpa [stTriangle] using hp
  rcases hp' with rfl | rfl | rfl <;>
    norm_num [calculateNodeClustering, h1, h2, h3]

theorem clustering_triangle : calculateClusteringCoefficient stTriangle = 1 := by
  have h1 := nodeClustering_triangle ("P", ["Q", "R"]) (by decide)
  have h2 := nodeClustering_triangle ("Q", ["P", "R"]) (by decide)
  have h3 := nodeClustering_triangle ("R", ["P", "Q"]) (by decide)
  unfold calculateClusteringCoefficient
  rw [if_neg (by decide)]
  simp only [stTriangle] at h1 h2 h3
  norm_num [stTriangle, List.foldl_cons, h1, h2, h3]

theorem clusteringCoefficient_claim (st : TopoState)
    (hsub : ∀ k ∈ st.topologyGraph.map Prod.fst, k ∈ st.nodes.map Prod.fst) :
    calculateClusteringCoefficient st = clusteringSpec st.topologyGraph ∧
    calculateClusteringCoefficient stTriangle = 1 ∧
    (∀ p ∈ stTriangle.topologyGraph,
      calculateNodeClustering stTriangle.topologyGraph p.2 = 1) :=
  ⟨calculateClusteringCoefficient_eq_spec st hsub, clustering_triangle,
   nodeClustering_triangle⟩

/-- Witness for C7 at the triangle state. -/
theorem clusteringCoefficient_claim_witness :
    calculateClusteringCoefficient stTriangle = clusteringSpec stTriangle.topologyGraph :=
  (clusteringCoefficient_claim stTriangle (by decide)).1

/-! Discovery search matching (claim C4), from
`src/src/protocols/DiscoveryProtocol.js` nodeMatchesQuery. -/

/-- A search query; `none` models an absent field and `some ""` (or
`some 0`) a present but falsy one — both skip the check in JS. -/
structure Query where
  name : Option String
  type : Option String
  capability : Option String
  status : Option String
  minTrustScore : Option Nat
deriving DecidableEq

/-- JS truthiness of an optional string field. -/
def truthyS : Option String → Bool
  | some s => s != ""
  | none => false

/-- JS truthiness of an optional numeric field. -/
def truthyN : Option Nat → Bool
  | some n => n != 0
  | none => false

/-- JS `hay.includes(pat)`. -/
def strContains (hay pat : String) : Bool :=
  (List.range (hay.length + 1)).any
    (fun i => ((hay.toList.drop i).take pat.length) == pat.toList)

/-- One `cap === true || (typeof cap === 'string' &&
cap.toLowerCase().includes(q.toLowerCase()))` test. -/
def capValMatches (qcap : String) : CapVal → Bool
  | .b bb => bb == true
  | .s ss => strContains ss.toLower qcap.toLower

/-- The capability clause of nodeMatchesQuery:
`Object.values(node.capabilities).some(...)` — the queried capability KEY is
never consulted. -/
def hasCapabilityJS (node : MeshNode) (qcap : String) : Bool :=
  (node.capabilities.map Prod.snd).any (capValMatches qcap)

/-- DiscoveryProtocol.nodeMatchesQuery: the early-return chain. -/
def nodeMatchesQuery (node : MeshNode) (q : Query) : Bool :=
  if truthyS q.name && !(strContains node.name.toLower ((q.name.getD "").toLower)) then
    false
  else if truthyS q.type && !(node.type == q.type.getD "") then
    false
  else if truthyS q.capability && !(hasCapabilityJS node (q.capability.getD "")) then
    false
  else if truthyS q.status && !(node.status == q.status.getD "") then
    false
  else if truthyN q.minTrustScore
      && decide (node.trustScore < q.minTrustScore.getD 0) then
    false
  else
    true

/-- The same matcher as one conjunction: each present-and-truthy field must
pass its check, with the capability check being the key-ignoring JS one. -/
def nodeMatchesSpec (node : MeshNode) (q : Query) : Bool :=
  (!truthyS q.name || strContains node.name.toLower ((q.name.getD "").toLower)) &&
  (!truthyS q.type || node.type == q.type.getD "") &&
  (!truthyS q.capability || hasCapabilityJS node (q.capability.getD "")) &&
  (!truthyS q.status || node.status == q.status.getD "") &&
  (!truthyN q.minTrustScore || decide (q.minTrustScore.getD 0 ≤ node.trustScore))

/-- Modelled from the claim's words: the queried capability is present with
value `true`, or some string-valued capability contains the query string
case-insensitively. -/
def claimCapabilityCond (node : MeshNode) (qcap : String) : Bool :=
  (mapGet node.capabilities qcap == some (CapVal.b true)) ||
  (node.capabilities.map Prod.snd).any (fun c =>
    match c with
    | .s ss => strContains ss.toLower qcap.toLower
    | .b _ => false)

/-- Fixture: a node whose only capability is `storage: true`. -/
def nodeStorage : MeshNode :=
  ⟨"S", "storage-node", "standard", "active", 80, [("storage", CapVal.b true)]⟩

/-- Fixture: a query asking for the `routing` capability. -/
def queryRouting : Query := ⟨none, none, some "routing", none, none⟩

/-- C4, counterexample: a node with only `storage: true` matches the query
for capability `routing`, although the claim's condition (routing present
and true, or a string capability containing "routing") is false — the code
tests `Object.values(...)`, ignoring the queried key. -/
theorem capability_match_counterexample :
    nodeMatchesQuery nodeStorage queryRouting = true ∧
    claimCapabilityCond nodeStorage "routing" = false := by
  constructor <;> decide

/-- C4 (amended): search inclusion is the conjunction of the name
(case-insensitive substring), type (exact), status (exact) and
minimum-trust-score (inclusive lower bound) conditions with the capability
condition, where the capability condition holds iff ANY capability value is
exactly `true`, or some string-valued capability contains the queried
string case-insensitively (the queried key itself is ignored). -/
theorem nodeMatchesQuery_amended (node : MeshNode) (q : Query) :
    nodeMatchesQuery node q = nodeMatchesSpec node q := by
  unfold nodeMatchesQuery nodeMatchesSpec
  have hb5 : decide (q.minTrustScore.getD 0 ≤ node.trustScore)
      = !(decide (node.trustScore < q.minTrustScore.getD 0)) := by
    by_cases h : node.trustScore < q.minTrustScore.getD 0
    · simp [h, show ¬(q.minTrustScore.getD 0 ≤ node.trustScore) by omega]
    · simp [h, show q.minTrustScore.getD 0 ≤ node.trustScore by omega]
  rw [hb5]
  generalize truthyS q.name = a1
  generalize strContains node.name.toLower ((q.name.getD "").toLower) = b1
  generalize truthyS q.type = a2
  generalize (node.type == q.type.getD "") = b2
  generalize truthyS q.capability = a3
  generalize hasCapabilityJS node (q.capability.getD "") = b3
  generalize truthyS q.status = a4
  generalize (node.status == q.status.getD "") = b4
  generalize truthyN q.minTrustScore = a5
  generalize decide (node.trustScore < q.minTrustScore.getD 0) = b5
  cases a1 <;> cases b1 <;> cases a2 <;> cases b2 <;> cases a3 <;> cases b3 <;>
    cases a4 <;> cases b4 <;> cases a5 <;> cases b5 <;> rfl

/-! MessageRouter (claims C1, C2, C3, C8, C10), from
`src/src/network/MessageRouter.js`, and TopologyManager.findShortestPath
(claim C2) from `src/unnamed/part_002`. -/

/-- Router environment: the mesh registry and the TopologyManager state,
fixed for the duration of one processing step. -/
structure Env where
  registry : Registry
  topo : TopoState

/-- `meshNetwork.nodes.get(v)` for a possibly non-string key. -/
def regGet (reg : Registry) : JVal → Option MeshNode
  | .str s => mapGet reg s
  | _ => none

/-- `previous.get(current)` during path reconstruction: a missing key gives
`undefined`, never `null`. -/
def reconNext (prev : List (String × String)) : JVal → JVal
  | .str s =>
    match mapGet prev s with
    | some v => .str v
    | none => .undefined
  | _ => .undefined

/-- The `while (current !== null) { path.unshift(current); current =
previous.get(current); }` loop, with fuel; `none` means the loop is still
running after `fuel` iterations. -/
def reconLoop (prev : List (String × String)) : Nat → JVal → List JVal → Option (List JVal)
  | 0, _, _ => none
  | fuel + 1, cur, acc =>
    if cur = JVal.nullv then some acc
    else reconLoop prev fuel (reconNext prev cur) (cur :: acc)

/-- The minimum-distance scan over the unvisited set (`current = null`,
`minDistance = Infinity` initially). -/
def findMinNode (dist : List (String × Option Nat)) (unvisited : List String) :
    Option String × Option Nat :=
  unvisited.foldl (fun acc nodeId =>
    if optLt ((mapGet dist nodeId).getD none) acc.2 then
      (some nodeId, (mapGet dist nodeId).getD none)
    else acc) (none, none)

/-- The main Dijkstra loop of findShortestPath; each non-breaking iteration
deletes one element of `unvisited`, so `unvisited.length` fuel suffices. -/
def dijkstraLoop (g : Graph) (tgtId : String) :
    Nat → List (String × Option Nat) → List (String × String) → List String →
    List (String × String)
  | 0, _, prev, _ => prev
  | fuel + 1, dist, prev, unvisited =>
    if unvisited.isEmpty then prev
    else
      match findMinNode dist unvisited with
      | (none, _) => prev
      | (some current, minD) =>
        if minD.isNone then prev
        else
          let unvisited' := setDelete unvisited current
          if current = tgtId then prev
          else
            let acc := (neighbors g current).foldl
              (fun (acc : List (String × Option Nat) × List (String × String)) nb =>
                if nb ∈ unvisited' then
                  let newDist := optAdd ((mapGet acc.1 current).getD none) (some 1)
                  if optLt newDist ((mapGet acc.1 nb).getD none) then
                    (mapSet acc.1 nb newDist, mapSet acc.2 nb current)
                  else acc
                else acc) (dist, prev)
            dijkstraLoop g tgtId fuel acc.1 acc.2 unvisited'

/-- TopologyManager.findShortestPath.  `some (some p)` — returned path `p`;
`some none` — returned null (unknown endpoint); `none` — the
reconstruction loop is still running after `reconFuel` iterations (it can
never exit: `reconLoop_no_exit`). -/
def findShortestPath (env : Env) (reconFuel : Nat) (srcName tgtName : JVal) :
    Option (Option (List JVal)) :=
  match regGet env.registry srcName, regGet env.registry tgtName with
  | some src, some tgt =>
    let dist0 := mapSet (env.topo.nodes.map (fun p => (p.1, (none : Option Nat))))
      src.id (some 0)
    let unvisited0 := env.topo.nodes.map Prod.fst
    let prev := dijkstraLoop env.topo.topologyGraph tgt.id unvisited0.length
      dist0 [] unvisited0
    match reconLoop prev reconFuel (.str tgt.id) [] with
    | none => none
    | some path => some (if path.length > 1 then some path else none)
  | _, _ => some none

/-- A routed message (the metadata fields the router reads and writes). -/
structure Msg where
  id : String
  sourceNode : String
  targetNode : String
  routingAttempts : Nat
  maxRoutingAttempts : Nat
deriving DecidableEq

/-- A delivery task wrapping a message with its resolved path. -/
structure DeliveryTask where
  message : Msg
  routingPath : List JVal
  currentHop : Nat
  status : String
deriving DecidableEq

/-- An entry of the failed-message archive. -/
structure FailedEntry where
  message : Msg
  error : String
  routingPath : Option (List JVal)
deriving DecidableEq

/-- MessageRouter state (timestamps and the running average omitted). -/
structure RouterState where
  messageQueue : List Msg
  deliveryQueue : List DeliveryTask
  failedMessages : List FailedEntry
  messagesRouted : Nat
  messagesDelivered : Nat
  messagesFailed : Nat
deriving DecidableEq

/-- MessageRouter.routeMessage: stamp the retry metadata, enqueue into the
intake queue, count the message as routed. -/
def routeMessage (m : Msg) (st : RouterState) : RouterState :=
  { st with
    messageQueue := st.messageQueue ++
      [{ m with routingAttempts := 0, maxRoutingAttempts := 3 }],
    messagesRouted := st.messagesRouted + 1 }

/-- `path.map(nodeId => { const node = nodes.get(nodeId); return node ?
node.name : nodeId; })` of determineRoutingPath. -/
def idToName (reg : Registry) : JVal → JVal
  | .str nid =>
    match mapGet reg nid with
    | some node => .str node.name
    | none => .str nid
  | v => v

/-- The BFS queue loop of findFallbackPath, with fuel: `some (some p)` —
path found; `some none` — queue exhausted (null); `none` — out of fuel. -/
def fallbackLoop (env : Env) (tgt : String) :
    Nat → List (String × List String) → List String → Option (Option (List String))
  | 0, _, _ => none
  | _ + 1, [], _ => some none
  | fuel + 1, (node, path) :: rest, visited =>
    if node == tgt then some (some path)
    else if node ∈ visited then fallbackLoop env tgt fuel rest visited
    else
      let visited' := setAdd visited node
      let newEntries := (getNodeConnections env.topo (.str node)).filterMap (fun c =>
        let nextNode := if c.sourceNode == node then c.targetNode else c.sourceNode
        if nextNode ∈ visited' then none else some (nextNode, path ++ [nextNode]))
      fallbackLoop env tgt fuel (rest ++ newEntries) visited'

/-- MessageRouter.findFallbackPath. -/
def findFallbackPath (env : Env) (fuel : Nat) (s t : String) :
    Option (Option (List String)) :=
  fallbackLoop env t fuel [(s, [s])] []

/-- MessageRouter.determineRoutingPath: direct connection, else Dijkstra
(whose reconstruction never completes), else the BFS fallback; `none`
propagates a non-terminating inner computation. -/
def determineRoutingPath (env : Env) (fuel : Nat) (m : Msg) :
    Option (Option (List JVal)) :=
  match mapGet env.registry m.sourceNode, mapGet env.registry m.targetNode with
  | some _, some _ =>
    if (getConnection env.topo (.str m.sourceNode) (.str m.targetNode)).isSome then
      some (some [.str m.sourceNode, .str m.targetNode])
    else
      match findShortestPath env fuel (.str m.sourceNode) (.str m.targetNode) with
      | none => none
      | some (some path) => some (some (path.map (idToName env.registry)))
      | some none =>
        match findFallbackPath env fuel m.sourceNode m.targetNode with
        | none => none
        | some (some p) => some (some (p.map JVal.str))
        | some none => some none
  | _, _ => some none

/-- MessageRouter.processMessage: unknown target or source throws
immediately; otherwise resolve a path (throwing when null) and build the
pending delivery task. -/
def processMessage (env : Env) (fuel : Nat) (m : Msg) :
    Option (Except String DeliveryTask) :=
  if (mapGet env.registry m.targetNode).isNone then
    some (.error ("Target node not found: " ++ m.targetNode))
  else if (mapGet env.registry m.sourceNode).isNone then
    some (.error ("Source node not found: " ++ m.sourceNode))
  else
    match determineRoutingPath env fuel m with
    | none => none
    | some none => some (.error "No valid routing path found")
    | some (some path) =>
      some (.ok { message := m, routingPath := path, currentHop := 0, status := "pending" })

/-- MessageRouter.handleMessageFailure: bump the attempt counter, re-enqueue
into the intake queue below the cap, archive and count at the cap. -/
def handleMessageFailure (m : Msg) (err : String) (st : RouterState) : RouterState :=
  let m' := { m with routingAttempts := m.routingAttempts + 1 }
  if m'.routingAttempts < m'.maxRoutingAttempts then
    { st with messageQueue := st.messageQueue ++ [m'] }
  else
    { st with
      failedMessages := st.failedMessages ++ [⟨m', err, none⟩],
      messagesFailed := st.messagesFailed + 1 }

/-- The per-batch loop of processMessageQueue. -/
def processMessagesBatch (env : Env) (fuel : Nat) :
    List Msg → RouterState → Option RouterState
  | [], st => some st
  | m :: rest, st =>
    match processMessage env fuel m with
    | none => none
    | some (.ok task) =>
      processMessagesBatch env fuel rest
        { st with deliveryQueue := st.deliveryQueue ++ [task] }
    | some (.error e) =>
      processMessagesBatch env fuel rest (handleMessageFailure m e st)

/-- MessageRouter.processMessageQueue: splice off up to 5 messages and
process them. -/
def processMessageQueue (env : Env) (fuel : Nat) (st : RouterState) :
    Option RouterState :=
  if st.messageQueue.isEmpty then some st
  else
    processMessagesBatch env fuel (st.messageQueue.take 5)
      { st with messageQueue := st.messageQueue.drop 5 }

/-- MessageRouter.canRouteThroughNode: known node with a truthy `routing`
capability, a connection to the next hop, and active status. -/
def canRouteThroughNode (env : Env) (nodeName nextNodeName : JVal) : Bool :=
  match regGet env.registry nodeName with
  | none => false
  | some node =>
    if !capTruthy ((mapGet node.capabilities "routing").getD (.b false)) then false
    else if (getConnection env.topo nodeName nextNodeName).isNone then false
    else if !(node.status == "active") then false
    else true

/-- MessageRouter.deliverMessage: throws when the target is unknown;
otherwise the external `receiveMessage` succeeds and the delivered counter
is incremented (latency statistics omitted). -/
def deliverMessage (env : Env) (target : JVal) (st : RouterState) :
    Except String RouterState :=
  match regGet env.registry target with
  | none => .error "Target node not found"
  | some _ => .ok { st with messagesDelivered := st.messagesDelivered + 1 }

/-- The connection loop of findAlternativePath. -/
def altSearch (env : Env) (fuel : Nat) (current target : JVal) :
    List Conn → Option (Option (List JVal))
  | [] => some none
  | c :: rest =>
    let nextNode := if jeqStr c.sourceNode current then c.targetNode else c.sourceNode
    if !(jeqStr nextNode target) then
      match findShortestPath env fuel (.str nextNode) target with
      | none => none
      | some (some p) => some (some (current :: p.map (idToName env.registry)))
      | some none => altSearch env fuel current target rest
    else altSearch env fuel current target rest

/-- MessageRouter.findAlternativePath: probe the current node's other
neighbours for a route to the target. -/
def findAlternativePath (env : Env) (fuel : Nat) (current target : JVal) :
    Option (Option (List JVal)) :=
  altSearch env fuel current target (getNodeConnections env.topo current)

/-- MessageRouter.processDeliveryTask as a state transformer: `.ok st'`
means the call returned normally — and the caller never re-enqueues the
task, whatever mutation it received; `.error` means it threw; `none`
propagates a non-terminating path search. -/
def processDeliveryTask (env : Env) (fuel : Nat) (task : DeliveryTask)
    (st : RouterState) : Option (Except String RouterState) :=
  if !(task.status == "pending") then some (.ok st)
  else if task.routingPath.length ≤ task.currentHop + 1 then
    match deliverMessage env ((task.routingPath.getLast?).getD .undefined) st with
    | .error e => some (.error e)
    | .ok st' => some (.ok st')
  else
    let currentNode := task.routingPath.getD task.currentHop .undefined
    let nextNode := task.routingPath.getD (task.currentHop + 1) .undefined
    if task.routingPath.length == 2 && task.currentHop == 0 then
      match deliverMessage env nextNode st with
      | .error e => some (.error e)
      | .ok st' => some (.ok st')
    else if canRouteThroughNode env currentNode nextNode then
      some (.ok st)
    else
      match findAlternativePath env fuel currentNode nextNode with
      | none => none
      | some (some _) => some (.ok st)
      | some none => some (.error "Cannot route through node")

/-- MessageRouter.handleDeliveryFailure: bump the attempt counter,
re-enqueue the task into the delivery queue below the cap, archive (with
the routing path) and count at the cap. -/
def handleDeliveryFailure (task : DeliveryTask) (err : String) (st : RouterState) :
    RouterState :=
  let m' := { task.message with routingAttempts := task.message.routingAttempts + 1 }
  if m'.routingAttempts < m'.maxRoutingAttempts then
    { st with deliveryQueue := st.deliveryQueue ++
        [{ task with message := m', status := "pending" }] }
  else
    { st with
      failedMessages := st.failedMessages ++ [⟨m', err, some task.routingPath⟩],
      messagesFailed := st.messagesFailed + 1 }

/-- The per-batch loop of processDeliveryQueue. -/
def processDeliveryBatch (env : Env) (fuel : Nat) :
    List DeliveryTask → RouterState → Option RouterState
  | [], st => some st
  | t :: rest, st =>
    match processDeliveryTask env fuel t st with
    | none => none
    | some (.ok st') => processDeliveryBatch env fuel rest st'
    | some (.error e) =>
      processDeliveryBatch env fuel rest (handleDeliveryFailure t e st)

/-- MessageRouter.processDeliveryQueue: splice off up to 3 tasks and process
them. -/
def processDeliveryQueue (env : Env) (fuel : Nat) (st : RouterState) :
    Option RouterState :=
  if st.deliveryQueue.isEmpty then some st
  else
    processDeliveryBatch env fuel (st.deliveryQueue.take 3)
      { st with deliveryQueue := st.deliveryQueue.drop 3 }

/-- The `findIndex` + `splice(index, 1)` pair of retryFailedMessage: first
archive entry whose message id matches, and the archive without it. -/
def removeFirstFailure : List FailedEntry → String → Option (FailedEntry × List FailedEntry)
  | [], _ => none
  | f :: rest, mid =>
    if f.message.id == mid then some (f, rest)
    else
      match removeFirstFailure rest mid with
      | some (g, rest') => some (g, f :: rest')
      | none => none

/-- MessageRouter.retryFailedMessage: throw when the id is not archived;
otherwise remove the entry, reset the attempt counter to 0, and re-enqueue
the message into the intake queue. -/
def retryFailedMessage (messageId : String) (st : RouterState) :
    Except String RouterState :=
  match removeFirstFailure st.failedMessages messageId with
  | none => .error ("Failed message not found: " ++ messageId)
  | some (f, rest) =>
    .ok { st with
      failedMessages := rest,
      messageQueue := st.messageQueue ++ [{ f.message with routingAttempts := 0 }] }

/-- MessageRouter.clearFailedMessages: returns the number of removed
entries, empties the archive and zeroes the failed counter. -/
def clearFailedMessages (st : RouterState) : Nat × RouterState :=
  (st.failedMessages.length,
   { st with failedMessages := [], messagesFailed := 0 })

/-! Claim C2: the path-reconstruction loop of findShortestPath never
terminates.  `previous.get(...)` yields `undefined` for a missing key, and
the loop guard compares against `null`, so once the chain runs past its
last entry `current` stays `undefined` forever and the guard never becomes
false.  Consequently findShortestPath never produces a path. -/

theorem reconNext_ne_null (prev : List (String × String)) (cur : JVal) :
    reconNext prev cur ≠ JVal.nullv := by
  cases cur with
  | str s =>
    cases h : mapGet prev s <;> simp [reconNext, h]
  | undefined => simp [reconNext]
  | nullv => simp [reconNext]

theorem reconLoop_no_exit (prev : List (String × String)) :
    ∀ (fuel : Nat) (cur : JVal) (acc : List JVal), cur ≠ JVal.nullv →
      reconLoop prev fuel cur acc = none := by
  intro fuel
  induction fuel with
  | zero => intro cur acc _; rfl
  | succ n ih =>
    intro cur acc h
    unfold reconLoop
    rw [if_neg h]
    exact ih _ _ (reconNext_ne_null prev cur)

theorem findShortestPath_no_path (env : Env) (fuel : Nat) (s t : JVal) (p : List JVal) :
    findShortestPath env fuel s t ≠ some (some p) := by
  unfold findShortestPath
  cases hs : regGet env.registry s with
  | none => simp
  | some src =>
    cases ht : regGet env.registry t with
    | none => simp
    | some tgt =>
      dsimp only
      rw [reconLoop_no_exit _ fuel _ _ (by simp)]
      simp

/-- The two-node fixture for C2: alpha and beta are registered, tracked,
and joined by a direct edge. -/
def envC2 : Env :=
  ⟨[("alpha", ⟨"alpha", "alpha", "standard", "active", 50, []⟩),
    ("beta", ⟨"beta", "beta", "standard", "active", 50, []⟩)],
   ⟨[("cab", ⟨"cab", "alpha", "beta"⟩)],
    [("alpha", ⟨"alpha", "alpha", "standard", "active", 50, []⟩),
     ("beta", ⟨"beta", "beta", "standard", "active", 50, []⟩)],
    [("alpha", ["beta"]), ("beta", ["alpha"])]⟩⟩

/-- C2: findShortestPath never terminates with a path — not for any
environment, and in particular not for a directly connected pair, where
the claim promises a length-2 path: whatever fuel the reconstruction loop
is given, the computation is still running. -/
theorem findShortestPath_never_terminates :
    (∀ (fuel : Nat), findShortestPath envC2 fuel (.str "alpha") (.str "beta") = none) ∧
    (∀ (env : Env) (fuel : Nat) (s t : JVal) (p : List JVal),
      findShortestPath env fuel s t ≠ some (some p)) := by
  constructor
  · intro fuel
    unfold findShortestPath
    rw [show regGet envC2.registry (JVal.str "alpha")
        = some ⟨"alpha", "alpha", "standard", "active", 50, []⟩ from rfl]
    rw [show regGet envC2.registry (JVal.str "beta")
        = some ⟨"beta", "beta", "standard", "active", 50, []⟩ from rfl]
    dsimp only
    rw [reconLoop_no_exit _ fuel _ _ (by simp)]
  · exact fun env fuel s t p => findShortestPath_no_path env fuel s t p

/-! Claim C1: a forwarded multi-hop delivery task is dropped.
processDeliveryQueue splices tasks out of the delivery queue; on a
successful forward, processDeliveryTask advances the cursor of the local
task object but nothing re-enqueues it, so the envelope leaves every
queue without being delivered or archived. -/

/-- Three-node chain fixture A1—B1—C1 with routing-capable nodes. -/
def envC1 : Env :=
  ⟨[("A1", ⟨"A1", "A1", "router", "active", 50, [("routing", CapVal.b true)]⟩),
    ("B1", ⟨"B1", "B1", "router", "active", 50, [("routing", CapVal.b true)]⟩),
    ("C1", ⟨"C1", "C1", "standard", "active", 50, []⟩)],
   ⟨[("cAB", ⟨"cAB", "A1", "B1"⟩), ("cBC", ⟨"cBC", "B1", "C1"⟩)],
    [("A1", ⟨"A1", "A1", "router", "active", 50, [("routing", CapVal.b true)]⟩),
     ("B1", ⟨"B1", "B1", "router", "active", 50, [("routing", CapVal.b true)]⟩),
     ("C1", ⟨"C1", "C1", "standard", "active", 50, []⟩)],
    [("A1", ["B1"]), ("B1", ["A1", "C1"]), ("C1", ["B1"])]⟩⟩

/-- A pending three-hop delivery task for message m1 (A1 → C1 via B1). -/
def taskC1 : DeliveryTask :=
  ⟨⟨"m1", "A1", "C1", 0, 3⟩, [.str "A1", .str "B1", .str "C1"], 0, "pending"⟩

/-- C1, violated: one delivery pass on a state whose only content is the
pending three-hop task forwards the message over the first hop and then
drops it — the resulting state has empty intake queue, empty delivery
queue, empty failed archive, and zero delivered messages, so the
undelivered envelope is in none of the three places. -/
theorem envelope_dropped_after_forward :
    processDeliveryQueue envC1 0 ⟨[], [taskC1], [], 1, 0, 0⟩
      = some ⟨[], [], [], 1, 0, 0⟩ := by
  rfl

/-! Claim C3: a message whose target is unknown fails immediately and never
enters the delivery queue — but it IS retried: handleMessageFailure
re-enqueues every failure below the attempt cap, including unknown-node
failures. -/

/-- Registry knowing only the source node of message m3. -/
def envC3 : Env :=
  ⟨[("src1", ⟨"src1", "src1", "standard", "active", 50, []⟩)], ⟨[], [], []⟩⟩

/-- Message m3 addressed to the unregistered target tgt1. -/
def msgC3 : Msg := ⟨"m3", "src1", "tgt1", 0, 3⟩

/-- C3, counterexample: after one intake pass the unknown-target message is
back in the intake queue with one routing attempt — it was retried, and
not archived — contradicting "is not retried". -/
theorem unknown_target_retried_counterexample :
    processMessageQueue envC3 0 ⟨[msgC3], [], [], 1, 0, 0⟩
      = some ⟨[{ msgC3 with routingAttempts := 1 }], [], [], 1, 0, 0⟩ := by
  rfl

/-- C3 (amended): a message whose target is absent from the registry fails
immediately with the unknown-node error and never enters the delivery
queue, but it is re-enqueued into the intake queue while its attempt
counter stays below maxRoutingAttempts; at the cap it is archived with the
error and the failed counter increments. -/
theorem unknown_target_amended (env : Env) (fuel : Nat) (m : Msg) (st : RouterState)
    (ht : mapGet env.registry m.targetNode = none) :
    processMessage env fuel m = some (.error ("Target node not found: " ++ m.targetNode)) ∧
    (∀ e, (handleMessageFailure m e st).deliveryQueue = st.deliveryQueue) ∧
    (m.routingAttempts + 1 < m.maxRoutingAttempts → ∀ e,
      handleMessageFailure m e st =
        { st with messageQueue := st.messageQueue ++
            [{ m with routingAttempts := m.routingAttempts + 1 }] }) ∧
    (m.maxRoutingAttempts ≤ m.routingAttempts + 1 → ∀ e,
      handleMessageFailure m e st =
        { st with
          failedMessages := st.failedMessages ++
            [⟨{ m with routingAttempts := m.routingAttempts + 1 }, e, none⟩],
          messagesFailed := st.messagesFailed + 1 }) := by
  refine ⟨?_, ?_, ?_, ?_⟩
  · unfold processMessage
    rw [if_pos (by simp [ht])]
  · intro e
    unfold handleMessageFailure
    by_cases h : m.routingAttempts + 1 < m.maxRoutingAttempts
    · rw [if_pos h]
    · rw [if_neg h]
  · intro h e
    unfold handleMessageFailure
    rw [if_pos h]
  · intro h e
    unfold handleMessageFailure
    rw [if_neg (show ¬(m.routingAttempts + 1 < m.maxRoutingAttempts) by omega)]

/-- Witness for C3's amended claim at the concrete fixture. -/
theorem unknown_target_amended_witness :
    processMessage envC3 0 msgC3
      = some (.error ("Target node not found: " ++ "tgt1")) :=
  (unknown_target_amended envC3 0 msgC3 ⟨[], [], [], 0, 0, 0⟩ rfl).1

/-! Claim C8: the retry cap and the failed archive. -/

/-- C8: with attempts starting at 0 and the cap at 3, the first two
failure outcomes re-enqueue the message at its originating stage (intake
for intake failures, delivery for delivery failures) without touching the
archive, the third failure archives it exactly once and increments
messagesFailed by exactly 1; and retryFailedMessage removes the archived
entry, resets the attempt counter to 0, and re-enqueues the message into
the intake queue. -/
theorem retry_cap_claim (st st3 : RouterState) (m : Msg) (task : DeliveryTask)
    (e1 e2 e3 e : String)
    (hm0 : m.routingAttempts = 0) (hmax : m.maxRoutingAttempts = 3)
    (harc : (st3.failedMessages.filter (fun f => f.message.id == m.id)).length = 0) :
    handleMessageFailure m e1 st =
      { st with messageQueue := st.messageQueue ++ [{ m with routingAttempts := 1 }] } ∧
    handleMessageFailure { m with routingAttempts := 1 } e2 st =
      { st with messageQueue := st.messageQueue ++ [{ m with routingAttempts := 2 }] } ∧
    (handleMessageFailure { m with routingAttempts := 2 } e3 st3 =
      { st3 with
        failedMessages := st3.failedMessages ++ [⟨{ m with routingAttempts := 3 }, e3, none⟩],
        messagesFailed := st3.messagesFailed + 1 } ∧
     ((handleMessageFailure { m with routingAttempts := 2 } e3 st3).failedMessages.filter
        (fun f => f.message.id == m.id)).length = 1) ∧
    (task.message.routingAttempts + 1 < task.message.maxRoutingAttempts →
      handleDeliveryFailure task e st =
        { st with deliveryQueue := st.deliveryQueue ++
            [{ task with
               message := { task.message with
                 routingAttempts := task.message.routingAttempts + 1 },
               status := "pending" }] }) ∧
    (task.message.maxRoutingAttempts ≤ task.message.routingAttempts + 1 →
      handleDeliveryFailure task e st =
        { st with
          failedMessages := st.failedMessages ++
            [⟨{ task.message with routingAttempts := task.message.routingAttempts + 1 },
              e, some task.routingPath⟩],
          messagesFailed := st.messagesFailed + 1 }) ∧
    (∀ (s : RouterState) (f : FailedEntry) (rest : List FailedEntry),
      removeFirstFailure s.failedMessages f.message.id = some (f, rest) →
      retryFailedMessage f.message.id s =
        .ok { s with
          failedMessages := rest,
          messageQueue := s.messageQueue ++ [{ f.message with routingAttempts := 0 }] }) := by
  refine ⟨?_, ?_, ⟨?_, ?_⟩, ?_, ?_, ?_⟩
  · unfold handleMessageFailure
    rw [if_pos (by simp [hm0, hmax])]
    simp [hm0]
  · unfold handleMessageFailure
    rw [if_pos (by simp [hmax])]
  · unfold handleMessageFailure
    rw [if_neg (by simp [hmax])]
  · unfold handleMessageFailure
    rw [if_neg (by simp [hmax])]
    simp [List.filter_append, harc]
  · intro h
    unfold handleDeliveryFailure
    rw [if_pos h]
  · intro h
    unfold handleDeliveryFailure
    rw [if_neg (show ¬(task.message.routingAttempts + 1 < task.message.maxRoutingAttempts)
      by omega)]
  · intro s f rest h
    unfold retryFailedMessage
    rw [h]

/-- Witness for C8 at a concrete state. -/
theorem retry_cap_claim_witness :
    handleMessageFailure ⟨"m8", "a", "b", 0, 3⟩ "err" ⟨[], [], [], 0, 0, 0⟩
      = ⟨[⟨"m8", "a", "b", 1, 3⟩], [], [], 0, 0, 0⟩ :=
  (retry_cap_claim ⟨[], [], [], 0, 0, 0⟩ ⟨[], [], [], 0, 0, 0⟩
    ⟨"m8", "a", "b", 0, 3⟩ ⟨⟨"m8", "a", "b", 0, 3⟩, [], 0, "pending"⟩
    "err" "err" "err" "err" rfl rfl rfl).1

/-! Claim C10: clearFailedMessages. -/

/-- C10: clearFailedMessages returns the number of archived messages,
empties the archive, resets messagesFailed to 0 whatever its prior value,
and leaves the queues and the other statistics untouched. -/
theorem clearFailedMessages_spec (st : RouterState) :
    (clearFailedMessages st).1 = st.failedMessages.length ∧
    (clearFailedMessages st).2 =
      { st with failedMessages := [], messagesFailed := 0 } :=
  ⟨rfl, rfl⟩

end SecureMesh
